/-
  Verification of the escrow state machine of `PhysicalWallEscrow.sol`
  (WallMarkOrg/WallMark, src/contracts/contracts/PhysicalWallEscrow.sol).

  Shallow embedding: addresses, hashes, values and timestamps are `Nat`
  (Solidity casts such as `uint64(block.timestamp)` are made explicit as
  `% 2 ^ 64`; the `uint96` overflow guard of `fundBooking` is embedded as the
  source writes it).  Each mutating function is embedded in two layers:

  * a commit phase (suffix `C` for the four terminal transitions), covering
    every storage write and event emission that the source performs before
    the external call `recipient.call{value: amt}('')`; and
  * the full function, which attempts the outbound transfer afterwards.
    The host environment decides whether the transfer succeeds; this choice
    is the explicit `xferOk : Bool` argument.  A failing transfer reverts
    the whole call (EVM revert semantics), which the embedding renders by
    returning `.error .TransferFailed` and discarding the committed state.

  The contract-wide storage `mapping(bytes32 => Booking)` is the `Ledger`
  type; `Call`, `exec`, `step` and `run` give trace semantics over it, and
  `Reachable` describes the ledgers obtainable from the all-default mapping
  by calls whose sender is a nonzero address (an EVM guarantee for external
  transactions).
-/
import Mathlib

namespace PhysicalWallEscrow

/-- The `BookingState` enum of the source.  `Funded` is the enum value 0,
hence also the state field of a never-written mapping slot. -/
inductive BookingState where
  | Funded
  | ProofSubmitted
  | Approved
  | Rejected
  | Expired
deriving DecidableEq, Repr

/-- The three terminal states of the state machine. -/
def BookingState.isTerminal : BookingState → Bool
  | .Approved => true
  | .Rejected => true
  | .Expired => true
  | _ => false

/-- The custom errors of the contract. -/
inductive Err where
  | Unauthorized
  | InvalidState
  | ZeroValue
  | AlreadyExists
  | TransferFailed
  | DisputeWindowOpen
  | DisputeWindowClosed
  | ProofDeadlineMissed
  | ProofDeadlineNotReached
deriving DecidableEq, Repr

/-- The `Booking` struct.  Field widths of the source (`uint96 amount`,
`uint64 fundedAt`, ..., `bytes32` hashes) are represented by `Nat` with the
source's casts made explicit at every write. -/
structure Booking where
  advertiser : Nat
  amount : Nat
  wallOwner : Nat
  fundedAt : Nat
  proofDeadlineSec : Nat
  installer : Nat
  proofSubmittedAt : Nat
  state : BookingState
  disputeWindowSec : Nat
  proofContentHash : Nat
  metadataHash : Nat
deriving DecidableEq, Repr

/-- The zero-initialized mapping slot: every field zero, state = enum 0
(`Funded`).  This is what `bookings[id]` reads before any successful
`fundBooking` on `id`. -/
def Booking.empty : Booking :=
  { advertiser := 0, amount := 0, wallOwner := 0, fundedAt := 0,
    proofDeadlineSec := 0, installer := 0, proofSubmittedAt := 0,
    state := .Funded, disputeWindowSec := 0, proofContentHash := 0,
    metadataHash := 0 }

/-- `uint32 public constant DEFAULT_PROOF_DEADLINE = 14 days`. -/
def DEFAULT_PROOF_DEADLINE : Nat := 14 * 86400

/-- `uint24 public constant DEFAULT_DISPUTE_WINDOW = 7 days`. -/
def DEFAULT_DISPUTE_WINDOW : Nat := 7 * 86400

/-- The events declared by the contract. -/
inductive Event where
  | BookingFunded (bookingId advertiser wallOwner installer amount metadataHash : Nat)
  | ProofSubmitted (bookingId proofContentHash submittedAt : Nat)
  | FundsReleased (bookingId recipient amount : Nat) (finalState : BookingState)
deriving DecidableEq, Repr

/-- Transaction environment of one external call: `msg.sender`, `msg.value`,
`block.timestamp`. -/
structure Env where
  sender : Nat
  value : Nat
  now : Nat
deriving DecidableEq, Repr

/-- Outcome of the part of a mutating function that precedes the external
call: the updated storage slot of the targeted booking, the emitted events,
and the pending outbound transfer (recipient, amount) if the function
performs one. -/
structure OpOut where
  booking : Booking
  transfer : Option (Nat × Nat)
  events : List Event
deriving DecidableEq, Repr

/-- `_release`: reads `amount`, zeroes it, writes the terminal state, emits
`FundsReleased`, and leaves the transfer of `amt` to `recipient` pending.
Everything in this function up to and including the event happens before
`recipient.call{value: amt}('')` in the source. -/
def _release (b : Booking) (bookingId recipient : Nat) (newState : BookingState) :
    OpOut :=
  let amt := b.amount
  { booking := { b with amount := 0, state := newState },
    transfer := some (recipient, amt),
    events := [.FundsReleased bookingId recipient amt newState] }

/-- Attempting the pending outbound transfer after the commit phase: if the
host environment makes `recipient.call` fail (`xferOk = false`), the whole
call reverts with `TransferFailed`; otherwise the committed outcome stands. -/
def finalize (xferOk : Bool) : Except Err OpOut → Except Err OpOut
  | .error e => .error e
  | .ok o =>
    match o.transfer with
    | none => .ok o
    | some _ => if xferOk then .ok o else .error .TransferFailed

/-- `fundBooking`, acting on the slot `b = bookings[bookingId]`.  Performs no
outbound transfer. -/
def fundBooking (env : Env) (b : Booking)
    (bookingId wallOwner installer metadataHash : Nat) : Except Err OpOut :=
  if env.value = 0 then .error .ZeroValue
  else if b.advertiser ≠ 0 then .error .AlreadyExists
  else if wallOwner = 0 then .error .Unauthorized
  else if installer = 0 then .error .Unauthorized
  else if env.value > 2 ^ 96 - 1 then .error .ZeroValue
  else
    .ok { booking :=
            { advertiser := env.sender, amount := env.value,
              wallOwner := wallOwner, fundedAt := env.now % 2 ^ 64,
              proofDeadlineSec := DEFAULT_PROOF_DEADLINE,
              installer := installer, proofSubmittedAt := 0,
              state := .Funded, disputeWindowSec := DEFAULT_DISPUTE_WINDOW,
              proofContentHash := 0, metadataHash := metadataHash },
          transfer := none,
          events := [.BookingFunded bookingId env.sender wallOwner installer
                        env.value metadataHash] }

/-- `submitProof`, acting on the slot `b = bookings[bookingId]`.  The
`inState(bookingId, Funded)` modifier runs first.  Performs no outbound
transfer. -/
def submitProof (env : Env) (b : Booking) (bookingId proofContentHash : Nat) :
    Except Err OpOut :=
  if b.state ≠ BookingState.Funded then .error .InvalidState
  else if env.sender ≠ b.installer then .error .Unauthorized
  else if env.now > b.fundedAt + b.proofDeadlineSec then .error .ProofDeadlineMissed
  else
    .ok { booking := { b with proofContentHash := proofContentHash,
                              proofSubmittedAt := env.now % 2 ^ 64,
                              state := .ProofSubmitted },
          transfer := none,
          events := [.ProofSubmitted bookingId proofContentHash (env.now % 2 ^ 64)] }

/-- Commit phase of `approveProof` (guards, then `_release` up to the
external call). -/
def approveProofC (env : Env) (b : Booking) (bookingId : Nat) : Except Err OpOut :=
  if b.state ≠ BookingState.ProofSubmitted then .error .InvalidState
  else if env.sender ≠ b.advertiser then .error .Unauthorized
  else .ok (_release b bookingId b.wallOwner .Approved)

/-- `approveProof`: commit phase, then the outbound transfer. -/
def approveProof (env : Env) (xferOk : Bool) (b : Booking) (bookingId : Nat) :
    Except Err OpOut :=
  finalize xferOk (approveProofC env b bookingId)

/-- Commit phase of `rejectProof`: guards, the write of `rejectionReasonHash`
into the `proofContentHash` slot, then `_release` up to the external call. -/
def rejectProofC (env : Env) (b : Booking) (bookingId rejectionReasonHash : Nat) :
    Except Err OpOut :=
  if b.state ≠ BookingState.ProofSubmitted then .error .InvalidState
  else if env.sender ≠ b.advertiser then .error .Unauthorized
  else if env.now > b.proofSubmittedAt + b.disputeWindowSec then
    .error .DisputeWindowClosed
  else
    .ok (_release { b with proofContentHash := rejectionReasonHash }
           bookingId b.advertiser .Rejected)

/-- `rejectProof`: commit phase, then the outbound transfer. -/
def rejectProof (env : Env) (xferOk : Bool) (b : Booking)
    (bookingId rejectionReasonHash : Nat) : Except Err OpOut :=
  finalize xferOk (rejectProofC env b bookingId rejectionReasonHash)

/-- Commit phase of `claimAfterTimeout` (no caller check). -/
def claimAfterTimeoutC (env : Env) (b : Booking) (bookingId : Nat) :
    Except Err OpOut :=
  if b.state ≠ BookingState.ProofSubmitted then .error .InvalidState
  else if env.now ≤ b.proofSubmittedAt + b.disputeWindowSec then
    .error .DisputeWindowOpen
  else .ok (_release b bookingId b.wallOwner .Approved)

/-- `claimAfterTimeout`: commit phase, then the outbound transfer. -/
def claimAfterTimeout (env : Env) (xferOk : Bool) (b : Booking) (bookingId : Nat) :
    Except Err OpOut :=
  finalize xferOk (claimAfterTimeoutC env b bookingId)

/-- Commit phase of `reclaimExpiredBooking`. -/
def reclaimExpiredBookingC (env : Env) (b : Booking) (bookingId : Nat) :
    Except Err OpOut :=
  if b.state ≠ BookingState.Funded then .error .InvalidState
  else if env.sender ≠ b.advertiser then .error .Unauthorized
  else if env.now ≤ b.fundedAt + b.proofDeadlineSec then
    .error .ProofDeadlineNotReached
  else .ok (_release b bookingId b.advertiser .Expired)

/-- `reclaimExpiredBooking`: commit phase, then the outbound transfer. -/
def reclaimExpiredBooking (env : Env) (xferOk : Bool) (b : Booking) (bookingId : Nat) :
    Except Err OpOut :=
  finalize xferOk (reclaimExpiredBookingC env b bookingId)

/-- The contract storage `mapping(bytes32 => Booking)`. -/
def Ledger := Nat → Booking

/-- Mapping read. -/
def Ledger.get (L : Ledger) (bookingId : Nat) : Booking := L bookingId

/-- Mapping write. -/
def Ledger.set (L : Ledger) (bookingId : Nat) (b : Booking) : Ledger :=
  fun j => if j = bookingId then b else L j

/-- The storage of a freshly deployed contract: every slot zero. -/
def initLedger : Ledger := fun _ => Booking.empty

/-- One external call to the contract, with its transaction environment and
(for the four terminal transitions) the host's choice of whether the outbound
transfer succeeds. -/
inductive Call where
  | fund (env : Env) (bookingId wallOwner installer metadataHash : Nat)
  | submit (env : Env) (bookingId proofContentHash : Nat)
  | approve (env : Env) (xferOk : Bool) (bookingId : Nat)
  | reject (env : Env) (xferOk : Bool) (bookingId rejectionReasonHash : Nat)
  | claim (env : Env) (xferOk : Bool) (bookingId : Nat)
  | reclaim (env : Env) (xferOk : Bool) (bookingId : Nat)
deriving DecidableEq, Repr

/-- The booking id an external call addresses. -/
def Call.targetId : Call → Nat
  | .fund _ bookingId _ _ _ => bookingId
  | .submit _ bookingId _ => bookingId
  | .approve _ _ bookingId => bookingId
  | .reject _ _ bookingId _ => bookingId
  | .claim _ _ bookingId => bookingId
  | .reclaim _ _ bookingId => bookingId

/-- The `msg.sender` of an external call. -/
def Call.sender : Call → Nat
  | .fund env _ _ _ _ => env.sender
  | .submit env _ _ => env.sender
  | .approve env _ _ => env.sender
  | .reject env _ _ _ => env.sender
  | .claim env _ _ => env.sender
  | .reclaim env _ _ => env.sender

/-- The host's choice for the outbound transfer of this call (irrelevant for
`fund` and `submit`, which perform none). -/
def Call.xferOk : Call → Bool
  | .fund _ _ _ _ _ => true
  | .submit _ _ _ => true
  | .approve _ xferOk _ => xferOk
  | .reject _ xferOk _ _ => xferOk
  | .claim _ xferOk _ => xferOk
  | .reclaim _ xferOk _ => xferOk

/-- The four calls that perform a terminal transition. -/
def Call.isTerminalOp : Call → Bool
  | .approve _ _ _ => true
  | .reject _ _ _ _ => true
  | .claim _ _ _ => true
  | .reclaim _ _ _ => true
  | _ => false

/-- The five mutating state-transition operations (every mutating entry point
except the creation `fundBooking`). -/
def Call.isTransitionOp : Call → Bool
  | .submit _ _ _ => true
  | .approve _ _ _ => true
  | .reject _ _ _ _ => true
  | .claim _ _ _ => true
  | .reclaim _ _ _ => true
  | _ => false

/-- The terminal state a terminal-transition call drives its booking into
(junk value `Funded` on the two non-terminal calls). -/
def Call.finalState : Call → BookingState
  | .approve _ _ _ => .Approved
  | .reject _ _ _ _ => .Rejected
  | .claim _ _ _ => .Approved
  | .reclaim _ _ _ => .Expired
  | _ => .Funded

/-- Commit phase of a call against the mapping slot it addresses. -/
def callC (L : Ledger) : Call → Except Err OpOut
  | .fund env bookingId wallOwner installer metadataHash =>
      fundBooking env (L.get bookingId) bookingId wallOwner installer metadataHash
  | .submit env bookingId proofContentHash =>
      submitProof env (L.get bookingId) bookingId proofContentHash
  | .approve env _ bookingId => approveProofC env (L.get bookingId) bookingId
  | .reject env _ bookingId rejectionReasonHash =>
      rejectProofC env (L.get bookingId) bookingId rejectionReasonHash
  | .claim env _ bookingId => claimAfterTimeoutC env (L.get bookingId) bookingId
  | .reclaim env _ bookingId => reclaimExpiredBookingC env (L.get bookingId) bookingId

/-- Commit phase of a call at ledger level: the whole-mapping state at the
moment the outbound transfer (if any) is attempted, together with the pending
transfer and the events emitted so far. -/
def commitCall (L : Ledger) (c : Call) : Except Err (Ledger × OpOut) :=
  match callC L c with
  | .error e => .error e
  | .ok o => .ok (L.set c.targetId o.booking, o)

/-- Full execution of one external call: commit phase, then the outbound
transfer; a failing transfer reverts the call with `TransferFailed`. -/
def exec (L : Ledger) (c : Call) : Except Err (Ledger × OpOut) :=
  match commitCall L c with
  | .error e => .error e
  | .ok (L', o) =>
    match o.transfer with
    | none => .ok (L', o)
    | some _ => if c.xferOk then .ok (L', o) else .error .TransferFailed

/-- Whether an execution result is a success. -/
def succeeds : Except Err (Ledger × OpOut) → Bool
  | .ok _ => true
  | .error _ => false

/-- The storage after one external call: on success the new mapping, on any
revert the unchanged one (EVM revert semantics). -/
def step (L : Ledger) (c : Call) : Ledger :=
  match exec L c with
  | .ok (L', _) => L'
  | .error _ => L

/-- The storage after a sequence of external calls. -/
def run (L : Ledger) (cs : List Call) : Ledger := cs.foldl step L

/-- The ledgers reachable from a freshly deployed contract by external calls
whose `msg.sender` is a nonzero address (an EVM guarantee for external
transactions). -/
inductive Reachable : Ledger → Prop where
  | init : Reachable initLedger
  | next {L : Ledger} (c : Call) : Reachable L → Call.sender c ≠ 0 →
      Reachable (step L c)

/-- Ledger invariant: a slot whose `advertiser` is the zero address was never
successfully funded and is still all-zero; a slot whose `advertiser` is
nonzero holds a nonzero `amount` exactly while its state is non-terminal. -/
def Inv (L : Ledger) : Prop :=
  ∀ bookingId : Nat,
    ((L.get bookingId).advertiser = 0 → L.get bookingId = Booking.empty) ∧
    ((L.get bookingId).advertiser ≠ 0 →
      ((L.get bookingId).amount ≠ 0 ↔ (L.get bookingId).state.isTerminal = false))

/-- Whether a booking-level call result is a success. -/
def okB : Except Err OpOut → Bool
  | .ok _ => true
  | .error _ => false

/-! ### A concrete scenario, used by the witnesses below

Advertiser `1` funds booking `7` with 5 wei at time 100 (wall owner `2`,
installer `3`, metadata hash `11`); installer `3` submits proof hash `9` at
time 150. -/

def exFund : Call := .fund ⟨1, 5, 100⟩ 7 2 3 11

def exSubmit : Call := .submit ⟨3, 0, 150⟩ 7 9

/-- The ledger with booking `7` in `ProofSubmitted`. -/
def exLedgerPS : Ledger := step (step initLedger exFund) exSubmit

/-- The slot of booking `7` after `exFund` alone (state `Funded`). -/
def exBookingFunded : Booking :=
  { advertiser := 1, amount := 5, wallOwner := 2, fundedAt := 100,
    proofDeadlineSec := DEFAULT_PROOF_DEADLINE, installer := 3,
    proofSubmittedAt := 0, state := .Funded,
    disputeWindowSec := DEFAULT_DISPUTE_WINDOW, proofContentHash := 0,
    metadataHash := 11 }

/-- The slot of booking `7` in `exLedgerPS`. -/
def exBookingPS : Booking :=
  { advertiser := 1, amount := 5, wallOwner := 2, fundedAt := 100,
    proofDeadlineSec := DEFAULT_PROOF_DEADLINE, installer := 3,
    proofSubmittedAt := 150, state := .ProofSubmitted,
    disputeWindowSec := DEFAULT_DISPUTE_WINDOW, proofContentHash := 9,
    metadataHash := 11 }

/-- The slot of booking `7` after `approveProof` commits on `exLedgerPS`. -/
def exBookingApproved : Booking :=
  { exBookingPS with amount := 0, state := .Approved }

/-- The commit-phase output of `approveProof` by advertiser `1` on
`exLedgerPS`. -/
def exOutApproved : OpOut :=
  { booking := exBookingApproved, transfer := some (2, 5),
    events := [.FundsReleased 7 2 5 .Approved] }

/-! ### Basic lemmas about the ledger and the commit phases -/

theorem Ledger.get_set_self (L : Ledger) (bookingId : Nat) (b : Booking) :
    (L.set bookingId b).get bookingId = b := by
  simp [Ledger.get, Ledger.set]

theorem Ledger.get_set_ne (L : Ledger) (bookingId j : Nat) (b : Booking)
    (h : j ≠ bookingId) : (L.set bookingId b).get j = L.get j := by
  simp [Ledger.get, Ledger.set, h]

theorem fundBooking_ok {env : Env} {b : Booking} {bookingId w i m : Nat} {o : OpOut}
    (h : fundBooking env b bookingId w i m = .ok o) :
    env.value ≠ 0 ∧ b.advertiser = 0 ∧ w ≠ 0 ∧ i ≠ 0 ∧ env.value ≤ 2 ^ 96 - 1 ∧
    o = { booking :=
            { advertiser := env.sender, amount := env.value,
              wallOwner := w, fundedAt := env.now % 2 ^ 64,
              proofDeadlineSec := DEFAULT_PROOF_DEADLINE,
              installer := i, proofSubmittedAt := 0,
              state := .Funded, disputeWindowSec := DEFAULT_DISPUTE_WINDOW,
              proofContentHash := 0, metadataHash := m },
          transfer := none,
          events := [.BookingFunded bookingId env.sender w i env.value m] } := by
  unfold fundBooking at h
  split_ifs at h with h1 h2 h3 h4 h5
  all_goals first
    | exact Except.noConfusion h
    | (cases h; exact ⟨h1, not_ne_iff.mp h2, h3, h4, by omega, rfl⟩)

theorem submitProof_ok {env : Env} {b : Booking} {bookingId ph : Nat} {o : OpOut}
    (h : submitProof env b bookingId ph = .ok o) :
    b.state = .Funded ∧ env.sender = b.installer ∧
    env.now ≤ b.fundedAt + b.proofDeadlineSec ∧
    o = { booking := { b with proofContentHash := ph,
                              proofSubmittedAt := env.now % 2 ^ 64,
                              state := .ProofSubmitted },
          transfer := none,
          events := [.ProofSubmitted bookingId ph (env.now % 2 ^ 64)] } := by
  unfold submitProof at h
  split_ifs at h with h1 h2 h3
  all_goals first
    | exact Except.noConfusion h
    | (cases h; exact ⟨not_ne_iff.mp h1, not_ne_iff.mp h2, by omega, rfl⟩)

theorem approveProofC_ok {env : Env} {b : Booking} {bookingId : Nat} {o : OpOut}
    (h : approveProofC env b bookingId = .ok o) :
    b.state = .ProofSubmitted ∧ env.sender = b.advertiser ∧
    o = _release b bookingId b.wallOwner .Approved := by
  unfold approveProofC at h
  split_ifs at h with h1 h2
  all_goals first
    | exact Except.noConfusion h
    | (cases h; exact ⟨not_ne_iff.mp h1, not_ne_iff.mp h2, rfl⟩)

theorem rejectProofC_ok {env : Env} {b : Booking} {bookingId rh : Nat} {o : OpOut}
    (h : rejectProofC env b bookingId rh = .ok o) :
    b.state = .ProofSubmitted ∧ env.sender = b.advertiser ∧
    env.now ≤ b.proofSubmittedAt + b.disputeWindowSec ∧
    o = _release { b with proofContentHash := rh } bookingId b.advertiser .Rejected := by
  unfold rejectProofC at h
  split_ifs at h with h1 h2 h3
  all_goals first
    | exact Except.noConfusion h
    | (cases h; exact ⟨not_ne_iff.mp h1, not_ne_iff.mp h2, by omega, rfl⟩)

theorem claimAfterTimeoutC_ok {env : Env} {b : Booking} {bookingId : Nat} {o : OpOut}
    (h : claimAfterTimeoutC env b bookingId = .ok o) :
    b.state = .ProofSubmitted ∧
    b.proofSubmittedAt + b.disputeWindowSec < env.now ∧
    o = _release b bookingId b.wallOwner .Approved := by
  unfold claimAfterTimeoutC at h
  split_ifs at h with h1 h2
  all_goals first
    | exact Except.noConfusion h
    | (cases h; exact ⟨not_ne_iff.mp h1, by omega, rfl⟩)

theorem reclaimExpiredBookingC_ok {env : Env} {b : Booking} {bookingId : Nat} {o : OpOut}
    (h : reclaimExpiredBookingC env b bookingId = .ok o) :
    b.state = .Funded ∧ env.sender = b.advertiser ∧
    b.fundedAt + b.proofDeadlineSec < env.now ∧
    o = _release b bookingId b.advertiser .Expired := by
  unfold reclaimExpiredBookingC at h
  split_ifs at h with h1 h2 h3
  all_goals first
    | exact Except.noConfusion h
    | (cases h; exact ⟨not_ne_iff.mp h1, not_ne_iff.mp h2, by omega, rfl⟩)

/-- A successful `exec` has a successful commit phase with the same output. -/
theorem exec_ok {L : Ledger} {c : Call} {L' : Ledger} {o : OpOut}
    (h : exec L c = .ok (L', o)) : commitCall L c = .ok (L', o) := by
  unfold exec at h
  cases hc : commitCall L c with
  | error e => rw [hc] at h; exact Except.noConfusion h
  | ok p =>
    obtain ⟨L1, o1⟩ := p
    rw [hc] at h
    dsimp only at h
    cases ht : o1.transfer with
    | none =>
      rw [ht] at h
      simp only [Except.ok.injEq, Prod.mk.injEq] at h
      obtain ⟨rfl, rfl⟩ := h
      rfl
    | some t =>
      rw [ht] at h
      dsimp only at h
      split_ifs at h with hx
      · simp only [Except.ok.injEq, Prod.mk.injEq] at h
        obtain ⟨rfl, rfl⟩ := h
        rfl

/-- A successful commit phase writes only the targeted slot. -/
theorem commitCall_ok {L : Ledger} {c : Call} {L' : Ledger} {o : OpOut}
    (h : commitCall L c = .ok (L', o)) :
    callC L c = .ok o ∧ L' = L.set c.targetId o.booking := by
  unfold commitCall at h
  cases hc : callC L c with
  | error e => rw [hc] at h; exact Except.noConfusion h
  | ok o' => rw [hc] at h; cases h; exact ⟨rfl, rfl⟩

/-- A slot other than the targeted one is untouched by any call. -/
theorem step_get_other (L : Ledger) (c : Call) (bookingId : Nat)
    (h : bookingId ≠ c.targetId) :
    (step L c).get bookingId = L.get bookingId := by
  unfold step
  cases he : exec L c with
  | error e => rfl
  | ok p =>
    cases p with
    | mk L' o => exact (commitCall_ok (exec_ok he)).2 ▸ Ledger.get_set_ne L _ _ _ h

/-- A reverting call leaves the ledger unchanged. -/
theorem step_of_error {L : Ledger} {c : Call} {e : Err}
    (h : exec L c = .error e) : step L c = L := by
  unfold step; rw [h]

/-- A successful call leaves the ledger of its commit phase. -/
theorem step_of_ok {L : Ledger} {c : Call} {L' : Ledger} {o : OpOut}
    (h : exec L c = .ok (L', o)) : step L c = L' := by
  unfold step; rw [h]

/-! ### Terminal slots are locked forever -/

/-- A booking slot that has committed a terminal transition: it was funded
(nonzero `advertiser`) and its state is terminal. -/
def Booking.locked (b : Booking) : Prop :=
  b.advertiser ≠ 0 ∧ b.state.isTerminal = true

theorem terminal_state_ne {s : BookingState} (h : s.isTerminal = true) :
    s ≠ .Funded ∧ s ≠ .ProofSubmitted := by
  cases s <;> simp_all [BookingState.isTerminal]

/-- When the targeted slot is in a terminal state, each of the five
state-transition operations reverts with `InvalidState` (this is the
`inState` modifier on `submitProof`, `approveProof`, `rejectProof`,
`claimAfterTimeout` and the state guard of `reclaimExpiredBooking`). -/
theorem transition_invalid_of_terminal {L : Ledger} {c : Call}
    (hterm : ((L.get c.targetId).state).isTerminal = true)
    (htr : c.isTransitionOp = true) :
    exec L c = .error .InvalidState := by
  obtain ⟨h1, h2⟩ := terminal_state_ne hterm
  cases c <;>
    simp_all [exec, commitCall, callC, Call.isTransitionOp, Call.targetId,
      submitProof, approveProofC, rejectProofC, claimAfterTimeoutC,
      reclaimExpiredBookingC]

/-- On an already-funded slot (nonzero `advertiser`), `fundBooking` always
reverts: with `ZeroValue` when no value is sent, with `AlreadyExists`
otherwise. -/
theorem fund_reverts_of_exists {L : Ledger} {env : Env} {bookingId w i m : Nat}
    (hadv : (L.get bookingId).advertiser ≠ 0) :
    exec L (.fund env bookingId w i m) =
      .error (if env.value = 0 then .ZeroValue else .AlreadyExists) := by
  by_cases hv : env.value = 0 <;>
    simp [exec, commitCall, callC, fundBooking, Call.targetId, hv, hadv]

/-- A locked slot stays locked under every call, whatever its sender. -/
theorem locked_step {L : Ledger} (c : Call) {bookingId : Nat}
    (h : (L.get bookingId).locked) : ((step L c).get bookingId).locked := by
  by_cases hid : bookingId = c.targetId
  · subst hid
    have herr : ∃ e, exec L c = .error e := by
      cases c with
      | fund env bid w i m => exact ⟨_, fund_reverts_of_exists h.1⟩
      | submit env bid ph => exact ⟨_, transition_invalid_of_terminal h.2 rfl⟩
      | approve env x bid => exact ⟨_, transition_invalid_of_terminal h.2 rfl⟩
      | reject env x bid rh => exact ⟨_, transition_invalid_of_terminal h.2 rfl⟩
      | claim env x bid => exact ⟨_, transition_invalid_of_terminal h.2 rfl⟩
      | reclaim env x bid => exact ⟨_, transition_invalid_of_terminal h.2 rfl⟩
    obtain ⟨e, he⟩ := herr
    rw [step_of_error he]
    exact h
  · rw [step_get_other L c bookingId hid]
    exact h

/-- A locked slot stays locked under every sequence of calls. -/
theorem locked_run {L : Ledger} (cs : List Call) {bookingId : Nat}
    (h : (L.get bookingId).locked) : ((run L cs).get bookingId).locked := by
  induction cs generalizing L with
  | nil => exact h
  | cons c cs ih => exact ih (locked_step c h)

/-! ### The ledger invariant and its preservation -/

theorem inv_init : Inv initLedger := by
  intro bookingId
  exact ⟨fun _ => rfl, fun h => absurd rfl h⟩

/-- `Inv` is preserved by every call whose sender is a nonzero address. -/
theorem inv_step {L : Ledger} {c : Call} (hInv : Inv L) (hs : Call.sender c ≠ 0) :
    Inv (step L c) := by
  intro bookingId
  by_cases hid : bookingId = c.targetId
  · subst hid
    cases he : exec L c with
    | error e => rw [step_of_error he]; exact hInv _
    | ok p =>
      obtain ⟨L1, o1⟩ := p
      have hcc := commitCall_ok (exec_ok he)
      rw [step_of_ok he, hcc.2, Ledger.get_set_self]
      cases c with
      | fund env bid w i m =>
        obtain ⟨hv, hadv, hw, hi, hmax, rfl⟩ := fundBooking_ok hcc.1
        exact ⟨fun ha => absurd ha hs,
               fun _ => by simp [BookingState.isTerminal, hv]⟩
      | submit env bid ph =>
        obtain ⟨hstate, hsender, hdl, rfl⟩ := submitProof_ok hcc.1
        have hbadv : (L.get bid).advertiser ≠ 0 := by
          intro h0
          have hempty := (hInv bid).1 h0
          rw [hempty] at hsender
          exact hs hsender
        have hamt : (L.get bid).amount ≠ 0 :=
          ((hInv bid).2 hbadv).mpr (by rw [hstate]; rfl)
        exact ⟨fun ha => absurd ha hbadv,
               fun _ => by simp [BookingState.isTerminal, hamt]⟩
      | approve env x bid =>
        obtain ⟨hstate, hsender, rfl⟩ := approveProofC_ok hcc.1
        exact ⟨fun ha => absurd ha (hsender ▸ hs),
               fun _ => by simp [_release, BookingState.isTerminal]⟩
      | reject env x bid rh =>
        obtain ⟨hstate, hsender, hwin, rfl⟩ := rejectProofC_ok hcc.1
        exact ⟨fun ha => absurd ha (hsender ▸ hs),
               fun _ => by simp [_release, BookingState.isTerminal]⟩
      | claim env x bid =>
        obtain ⟨hstate, hwin, rfl⟩ := claimAfterTimeoutC_ok hcc.1
        have hbadv : (L.get bid).advertiser ≠ 0 := by
          intro h0
          have hempty := (hInv bid).1 h0
          rw [hempty] at hstate
          exact BookingState.noConfusion hstate
        exact ⟨fun ha => absurd ha hbadv,
               fun _ => by simp [_release, BookingState.isTerminal]⟩
      | reclaim env x bid =>
        obtain ⟨hstate, hsender, hdl, rfl⟩ := reclaimExpiredBookingC_ok hcc.1
        exact ⟨fun ha => absurd ha (hsender ▸ hs),
               fun _ => by simp [_release, BookingState.isTerminal]⟩
  · rw [step_get_other L c bookingId hid]
    exact hInv bookingId

/-- Every reachable ledger satisfies the invariant. -/
theorem inv_reachable {L : Ledger} (h : Reachable L) : Inv L := by
  induction h with
  | init => exact inv_init
  | next c _ hs ih => exact inv_step ih hs

/-- The concrete scenario reaches `exLedgerPS`. -/
theorem exLedgerPS_reachable : Reachable exLedgerPS :=
  Reachable.next exSubmit (Reachable.next exFund Reachable.init (by decide))
    (by decide)

/-- Sanity: the slot of booking `7` in the concrete scenario. -/
theorem exLedgerPS_get : exLedgerPS.get 7 = exBookingPS := by decide

/-- A terminal transition whose guards pass commits, before its transfer, a
slot with zero amount, terminal state and unchanged advertiser, and leaves a
transfer pending. -/
theorem terminal_commit_slot {L : Ledger} {c : Call} {L' : Ledger} {o : OpOut}
    (hterm : c.isTerminalOp = true) (h : commitCall L c = .ok (L', o)) :
    o.booking.amount = 0 ∧ (o.booking.state).isTerminal = true ∧
    o.booking.advertiser = (L.get c.targetId).advertiser ∧
    (∃ r a, o.transfer = some (r, a)) := by
  have hcc := commitCall_ok h
  cases c with
  | fund env bid w i m => exact Bool.noConfusion hterm
  | submit env bid ph => exact Bool.noConfusion hterm
  | approve env x bid =>
    obtain ⟨hstate, hsender, rfl⟩ := approveProofC_ok hcc.1
    exact ⟨rfl, rfl, rfl, _, _, rfl⟩
  | reject env x bid rh =>
    obtain ⟨hstate, hsender, hwin, rfl⟩ := rejectProofC_ok hcc.1
    exact ⟨rfl, rfl, rfl, _, _, rfl⟩
  | claim env x bid =>
    obtain ⟨hstate, hwin, rfl⟩ := claimAfterTimeoutC_ok hcc.1
    exact ⟨rfl, rfl, rfl, _, _, rfl⟩
  | reclaim env x bid =>
    obtain ⟨hstate, hsender, hdl, rfl⟩ := reclaimExpiredBookingC_ok hcc.1
    exact ⟨rfl, rfl, rfl, _, _, rfl⟩

/-- After a successful terminal transition by a nonzero sender on an
invariant-satisfying ledger, the targeted slot is locked. -/
theorem locked_after_terminal {L : Ledger} {c : Call} {L' : Ledger} {o : OpOut}
    (hInv : Inv L) (hs : Call.sender c ≠ 0) (hterm : c.isTerminalOp = true)
    (hok : exec L c = .ok (L', o)) : (L'.get c.targetId).locked := by
  have hcc := commitCall_ok (exec_ok hok)
  have hslot := terminal_commit_slot hterm (exec_ok hok)
  rw [hcc.2, Ledger.get_set_self]
  refine ⟨?_, hslot.2.1⟩
  rw [hslot.2.2.1]
  cases c with
  | fund env bid w i m => exact Bool.noConfusion hterm
  | submit env bid ph => exact Bool.noConfusion hterm
  | approve env x bid =>
    obtain ⟨hstate, hsender, rfl⟩ := approveProofC_ok hcc.1
    exact hsender ▸ hs
  | reject env x bid rh =>
    obtain ⟨hstate, hsender, hwin, rfl⟩ := rejectProofC_ok hcc.1
    exact hsender ▸ hs
  | claim env x bid =>
    obtain ⟨hstate, hwin, rfl⟩ := claimAfterTimeoutC_ok hcc.1
    intro h0
    have hempty := (hInv bid).1 h0
    rw [hempty] at hstate
    exact BookingState.noConfusion hstate
  | reclaim env x bid =>
    obtain ⟨hstate, hsender, hdl, rfl⟩ := reclaimExpiredBookingC_ok hcc.1
    exact hsender ▸ hs

/-! ### Claim theorems -/

/-- **C2.** `commitCall` is exactly the part of each terminal transition that
runs before the outbound `recipient.call`, so its output ledger is the one a
reentrant call made during the transfer observes.  In it the instance's
amount is already zero and its state already terminal; every reentrant
state-transition operation on the same id reverts with `InvalidState`, and
(the slot's advertiser being the unchanged nonzero funder) a reentrant
`fundBooking` on the same id reverts as well. -/
theorem C2_reentrancy_guard {L : Ledger} {c : Call} {Lmid : Ledger} {o : OpOut}
    (hterm : c.isTerminalOp = true)
    (hadv : (L.get c.targetId).advertiser ≠ 0)
    (hok : commitCall L c = .ok (Lmid, o)) :
    (Lmid.get c.targetId).amount = 0 ∧
    ((Lmid.get c.targetId).state).isTerminal = true ∧
    (∀ c' : Call, c'.isTransitionOp = true → c'.targetId = c.targetId →
       exec Lmid c' = .error .InvalidState) ∧
    (∀ env w i m, ∃ e,
       exec Lmid (.fund env c.targetId w i m) = .error e) := by
  have hcc := commitCall_ok hok
  have hslot := terminal_commit_slot hterm hok
  have hget : Lmid.get c.targetId = o.booking := by
    rw [hcc.2, Ledger.get_set_self]
  refine ⟨?_, ?_, ?_, ?_⟩
  · rw [hget]; exact hslot.1
  · rw [hget]; exact hslot.2.1
  · intro c' htr hid
    apply transition_invalid_of_terminal _ htr
    rw [hid, hget]
    exact hslot.2.1
  · intro env w i m
    refine ⟨_, fund_reverts_of_exists ?_⟩
    rw [hget, hslot.2.2.1]
    exact hadv

/-- Witness for C2: the commit phase of the advertiser's `approveProof` on
the concrete `ProofSubmitted` booking `7`. -/
theorem C2_witness :
    ((exLedgerPS.set 7 exBookingApproved).get 7).amount = 0 ∧
    (((exLedgerPS.set 7 exBookingApproved).get 7).state).isTerminal = true ∧
    (∀ c' : Call, c'.isTransitionOp = true → c'.targetId = 7 →
       exec (exLedgerPS.set 7 exBookingApproved) c' = .error .InvalidState) ∧
    (∀ env w i m, ∃ e,
       exec (exLedgerPS.set 7 exBookingApproved) (.fund env 7 w i m) =
         .error e) :=
  @C2_reentrancy_guard exLedgerPS (.approve ⟨1, 0, 200⟩ true 7)
    (exLedgerPS.set 7 exBookingApproved) exOutApproved (by decide) (by decide)
    (by rfl)

/-- **C3.** Transfer atomicity of the terminal transitions: when the guards
pass but the outbound transfer fails, the call reverts with `TransferFailed`;
a terminal transition returns successfully only when its transfer succeeded;
and any reverting call leaves the ledger — hence the instance's amount and
state — exactly as before the call.  No partial commit is observable. -/
theorem C3_transfer_atomicity {L : Ledger} {c : Call}
    (hterm : c.isTerminalOp = true) :
    (c.xferOk = false → (∃ p, commitCall L c = .ok p) →
       exec L c = .error .TransferFailed) ∧
    (∀ p, exec L c = .ok p → c.xferOk = true) ∧
    (∀ e, exec L c = .error e → step L c = L) := by
  refine ⟨fun hx hex => ?_, fun p hok => ?_, fun e he => step_of_error he⟩
  · obtain ⟨⟨L1, o1⟩, hp⟩ := hex
    obtain ⟨r, a, htr⟩ := (terminal_commit_slot hterm hp).2.2.2
    unfold exec
    rw [hp]
    dsimp only
    rw [htr]
    dsimp only
    rw [if_neg (by simp [hx])]
  · obtain ⟨L', o⟩ := p
    have hp := exec_ok hok
    obtain ⟨r, a, htr⟩ := (terminal_commit_slot hterm hp).2.2.2
    unfold exec at hok
    rw [hp] at hok
    dsimp only at hok
    rw [htr] at hok
    dsimp only at hok
    by_cases hx : c.xferOk = true
    · exact hx
    · rw [if_neg hx] at hok
      exact Except.noConfusion hok

/-- Witness for C3: `approveProof` on the concrete booking with a failing
transfer. -/
theorem C3_witness :
    ((Call.approve ⟨1, 0, 200⟩ false 7).xferOk = false →
       (∃ p, commitCall exLedgerPS (.approve ⟨1, 0, 200⟩ false 7) = .ok p) →
       exec exLedgerPS (.approve ⟨1, 0, 200⟩ false 7) =
         .error .TransferFailed) ∧
    (∀ p, exec exLedgerPS (.approve ⟨1, 0, 200⟩ false 7) = .ok p →
       (Call.approve ⟨1, 0, 200⟩ false 7).xferOk = true) ∧
    (∀ e, exec exLedgerPS (.approve ⟨1, 0, 200⟩ false 7) = .error e →
       step exLedgerPS (.approve ⟨1, 0, 200⟩ false 7) = exLedgerPS) :=
  C3_transfer_atomicity (by decide)

/-- **C5.** Every successful terminal transition transfers exactly the full
escrowed amount to the correct party — the wall owner when the final state is
`Approved` (`approveProof`, `claimAfterTimeout`), the advertiser when it is
`Rejected` (`rejectProof`) or `Expired` (`reclaimExpiredBooking`) — and emits
exactly one `FundsReleased` event carrying the id, that recipient, that
amount, and the final state, which is also the state written to storage. -/
theorem C5_release_correctness {L : Ledger} {c : Call} {L' : Ledger} {o : OpOut}
    (hterm : c.isTerminalOp = true) (hok : exec L c = .ok (L', o)) :
    o.transfer = some
        ((if c.finalState = .Approved then (L.get c.targetId).wallOwner
          else (L.get c.targetId).advertiser),
         (L.get c.targetId).amount) ∧
    o.events = [Event.FundsReleased c.targetId
        (if c.finalState = .Approved then (L.get c.targetId).wallOwner
         else (L.get c.targetId).advertiser)
        (L.get c.targetId).amount c.finalState] ∧
    (L'.get c.targetId).state = c.finalState := by
  have hcc := commitCall_ok (exec_ok hok)
  cases c with
  | fund env bid w i m => exact Bool.noConfusion hterm
  | submit env bid ph => exact Bool.noConfusion hterm
  | approve env x bid =>
    obtain ⟨hstate, hsender, rfl⟩ := approveProofC_ok hcc.1
    rw [hcc.2, Ledger.get_set_self]
    refine ⟨?_, ?_, rfl⟩ <;> simp [_release, Call.finalState, Call.targetId]
  | reject env x bid rh =>
    obtain ⟨hstate, hsender, hwin, rfl⟩ := rejectProofC_ok hcc.1
    rw [hcc.2, Ledger.get_set_self]
    refine ⟨?_, ?_, rfl⟩ <;> simp [_release, Call.finalState, Call.targetId]
  | claim env x bid =>
    obtain ⟨hstate, hwin, rfl⟩ := claimAfterTimeoutC_ok hcc.1
    rw [hcc.2, Ledger.get_set_self]
    refine ⟨?_, ?_, rfl⟩ <;> simp [_release, Call.finalState, Call.targetId]
  | reclaim env x bid =>
    obtain ⟨hstate, hsender, hdl, rfl⟩ := reclaimExpiredBookingC_ok hcc.1
    rw [hcc.2, Ledger.get_set_self]
    refine ⟨?_, ?_, rfl⟩ <;> simp [_release, Call.finalState, Call.targetId]

/-- Witness for C5: the advertiser's `approveProof` on the concrete booking
transfers the full 5 wei to wall owner `2` and emits the single
`FundsReleased` event. -/
theorem C5_witness :
    exOutApproved.transfer = some (2, 5) ∧
    exOutApproved.events = [Event.FundsReleased 7 2 5 .Approved] ∧
    ((exLedgerPS.set 7 exBookingApproved).get 7).state = BookingState.Approved :=
  @C5_release_correctness exLedgerPS (.approve ⟨1, 0, 200⟩ true 7)
    (exLedgerPS.set 7 exBookingApproved) exOutApproved (by decide) (by rfl)

/-- **C6.** For an instance in `Funded` state whose caller is the stored
installer, `submitProof` succeeds at every time up to and including
`fundedAt + proofDeadlineSec` (inclusive boundary), and reverts with
`ProofDeadlineMissed` at `fundedAt + proofDeadlineSec + 1` and every later
time. -/
theorem C6_proof_deadline_boundary (env : Env) (b : Booking) (bookingId ph : Nat)
    (hstate : b.state = .Funded) (hsender : env.sender = b.installer) :
    (env.now ≤ b.fundedAt + b.proofDeadlineSec →
       okB (submitProof env b bookingId ph) = true) ∧
    (b.fundedAt + b.proofDeadlineSec < env.now →
       submitProof env b bookingId ph = .error .ProofDeadlineMissed) := by
  constructor
  · intro h
    simp only [submitProof, hstate, hsender]
    rw [if_neg (by simp), if_neg (by simp), if_neg (by omega)]
    rfl
  · intro h
    simp only [submitProof, hstate, hsender]
    rw [if_neg (by simp), if_neg (by simp), if_pos h]

/-- Witness for C6: installer `3` submitting on the freshly funded booking
at exactly the deadline succeeds; one second later it reverts. -/
theorem C6_witness :
    (⟨3, 0, 100 + DEFAULT_PROOF_DEADLINE⟩ : Env).now ≤
        exBookingFunded.fundedAt + exBookingFunded.proofDeadlineSec ∧
    okB (submitProof ⟨3, 0, 100 + DEFAULT_PROOF_DEADLINE⟩
          exBookingFunded 7 9) = true :=
  ⟨by decide,
    (C6_proof_deadline_boundary ⟨3, 0, 100 + DEFAULT_PROOF_DEADLINE⟩
      exBookingFunded 7 9 (by decide) (by decide)).1 (by decide)⟩

/-- **C7.** For an instance in `ProofSubmitted` state (the payer calling
`rejectProof`): while `now ≤ proofSubmittedAt + disputeWindowSec`,
`rejectProof` succeeds and `claimAfterTimeout` reverts with
`DisputeWindowOpen`; once `now > proofSubmittedAt + disputeWindowSec`,
`rejectProof` reverts with `DisputeWindowClosed` and `claimAfterTimeout`
succeeds.  The two time gates are exactly complementary. -/
theorem C7_dispute_window_complementary (env : Env) (b : Booking)
    (bookingId rh : Nat)
    (hstate : b.state = .ProofSubmitted) (hsender : env.sender = b.advertiser) :
    (env.now ≤ b.proofSubmittedAt + b.disputeWindowSec →
       okB (rejectProof env true b bookingId rh) = true ∧
       (∀ x : Bool, claimAfterTimeout env x b bookingId =
          .error .DisputeWindowOpen)) ∧
    (b.proofSubmittedAt + b.disputeWindowSec < env.now →
       (∀ x : Bool, rejectProof env x b bookingId rh =
          .error .DisputeWindowClosed) ∧
       okB (claimAfterTimeout env true b bookingId) = true) := by
  constructor
  · intro h
    constructor
    · simp only [rejectProof, rejectProofC, hstate, hsender]
      rw [if_neg (by simp), if_neg (by simp), if_neg (by omega)]
      rfl
    · intro x
      simp only [claimAfterTimeout, claimAfterTimeoutC, hstate]
      rw [if_neg (by simp), if_pos h]
      rfl
  · intro h
    constructor
    · intro x
      simp only [rejectProof, rejectProofC, hstate, hsender]
      rw [if_neg (by simp), if_neg (by simp), if_pos h]
      rfl
    · simp only [claimAfterTimeout, claimAfterTimeoutC, hstate]
      rw [if_neg (by simp), if_neg (by omega)]
      rfl

/-- Witness for C7: inside the window (time 200) the advertiser's rejection
succeeds on the concrete `ProofSubmitted` booking. -/
theorem C7_witness :
    (⟨1, 0, 200⟩ : Env).now ≤
        exBookingPS.proofSubmittedAt + exBookingPS.disputeWindowSec ∧
    okB (rejectProof ⟨1, 0, 200⟩ true exBookingPS 7 13) = true ∧
    claimAfterTimeout ⟨1, 0, 200⟩ true exBookingPS 7 =
      .error .DisputeWindowOpen :=
  ⟨by decide,
    ((C7_dispute_window_complementary ⟨1, 0, 200⟩ exBookingPS 7 13
        (by decide) (by decide)).1 (by decide)).1,
    ((C7_dispute_window_complementary ⟨1, 0, 200⟩ exBookingPS 7 13
        (by decide) (by decide)).1 (by decide)).2 true⟩

/-- **C9.** Authorization: `submitProof` reverts with `Unauthorized` for any
caller other than the stored installer; `approveProof`, `rejectProof` and
`reclaimExpiredBooking` revert with `Unauthorized` for any caller other than
the stored advertiser; `claimAfterTimeout` performs no caller check and, for
every caller, succeeds once the state and time preconditions hold. -/
theorem C9_authorization (env : Env) (b : Booking) (bookingId ph rh : Nat) :
    (b.state = .Funded → env.sender ≠ b.installer →
       submitProof env b bookingId ph = .error .Unauthorized) ∧
    (b.state = .ProofSubmitted → env.sender ≠ b.advertiser →
       (∀ x : Bool, approveProof env x b bookingId = .error .Unauthorized) ∧
       (∀ x : Bool, rejectProof env x b bookingId rh = .error .Unauthorized)) ∧
    (b.state = .Funded → env.sender ≠ b.advertiser →
       ∀ x : Bool, reclaimExpiredBooking env x b bookingId =
         .error .Unauthorized) ∧
    (b.state = .ProofSubmitted →
       b.proofSubmittedAt + b.disputeWindowSec < env.now →
       okB (claimAfterTimeout env true b bookingId) = true) := by
  refine ⟨fun hstate hsender => ?_, fun hstate hsender => ⟨fun x => ?_, fun x => ?_⟩,
          fun hstate hsender => fun x => ?_, fun hstate h => ?_⟩
  · simp only [submitProof, hstate]
    rw [if_neg (by simp), if_pos hsender]
  · simp only [approveProof, approveProofC, finalize, hstate]
    rw [if_neg (by simp), if_pos hsender]
  · simp only [rejectProof, rejectProofC, finalize, hstate]
    rw [if_neg (by simp), if_pos hsender]
  · simp only [reclaimExpiredBooking, reclaimExpiredBookingC, finalize, hstate]
    rw [if_neg (by simp), if_pos hsender]
  · simp only [claimAfterTimeout, claimAfterTimeoutC, hstate]
    rw [if_neg (by simp), if_neg (by omega)]
    rfl

/-- Witness for C9: a stranger (address `4`) cannot reject the concrete
`ProofSubmitted` booking, but can trigger `claimAfterTimeout` once the
window has elapsed. -/
theorem C9_witness :
    rejectProof ⟨4, 0, 200⟩ true exBookingPS 7 13 = .error .Unauthorized ∧
    okB (claimAfterTimeout ⟨4, 0, 700000⟩ true exBookingPS 7) = true :=
  ⟨((C9_authorization ⟨4, 0, 200⟩ exBookingPS 7 9 13).2.1 (by decide)
      (by decide)).2 true,
    (C9_authorization ⟨4, 0, 700000⟩ exBookingPS 7 9 13).2.2.2 (by decide)
      (by decide)⟩

/-- The advertiser field of a funded slot is never zeroed by any call:
`fundBooking` is the only writer of the field, and it reverts on a slot whose
advertiser is already nonzero. -/
theorem adv_nonzero_step {L : Ledger} (c : Call) {bookingId : Nat}
    (h : (L.get bookingId).advertiser ≠ 0) :
    ((step L c).get bookingId).advertiser ≠ 0 := by
  by_cases hid : bookingId = c.targetId
  · subst hid
    cases he : exec L c with
    | error e => rw [step_of_error he]; exact h
    | ok p =>
      obtain ⟨L1, o1⟩ := p
      have hcc := commitCall_ok (exec_ok he)
      rw [step_of_ok he, hcc.2, Ledger.get_set_self]
      cases c with
      | fund env bid w i m =>
        obtain ⟨_, hadv, _⟩ := fundBooking_ok hcc.1
        exact absurd hadv h
      | submit env bid ph =>
        obtain ⟨_, _, _, rfl⟩ := submitProof_ok hcc.1
        exact h
      | approve env x bid =>
        obtain ⟨_, _, rfl⟩ := approveProofC_ok hcc.1
        exact h
      | reject env x bid rh =>
        obtain ⟨_, _, _, rfl⟩ := rejectProofC_ok hcc.1
        exact h
      | claim env x bid =>
        obtain ⟨_, _, rfl⟩ := claimAfterTimeoutC_ok hcc.1
        exact h
      | reclaim env x bid =>
        obtain ⟨_, _, _, rfl⟩ := reclaimExpiredBookingC_ok hcc.1
        exact h
  · rw [step_get_other L c bookingId hid]
    exact h

/-- The advertiser field of a funded slot stays nonzero under every sequence
of calls. -/
theorem adv_nonzero_run {L : Ledger} (cs : List Call) {bookingId : Nat}
    (h : (L.get bookingId).advertiser ≠ 0) :
    ((run L cs).get bookingId).advertiser ≠ 0 := by
  induction cs generalizing L with
  | nil => exact h
  | cons c cs ih => exact ih (adv_nonzero_step c h)

/-- **C1.** Once one of the four terminal transitions (`approveProof`,
`rejectProof`, `claimAfterTimeout`, `reclaimExpiredBooking`) has succeeded on
a booking id of a reachable ledger, every later call to any of the five
mutating state-transition operations on that id — after arbitrarily many
intervening calls on any ids — reverts with `InvalidState`.  In particular at
most one of the four terminal transitions ever succeeds on a given id, and
the terminal states are final. -/
theorem C1_terminal_exclusivity {L : Ledger} (hreach : Reachable L)
    {c : Call} (hs : Call.sender c ≠ 0) (hterm : c.isTerminalOp = true)
    {L' : Ledger} {o : OpOut} (hok : exec L c = .ok (L', o))
    (mid : List Call) (c' : Call) (htr : c'.isTransitionOp = true)
    (hid : c'.targetId = c.targetId) :
    exec (run L' mid) c' = .error .InvalidState := by
  have hlock := locked_after_terminal (inv_reachable hreach) hs hterm hok
  have hlock2 := locked_run mid hlock
  refine transition_invalid_of_terminal ?_ htr
  rw [hid]
  exact hlock2.2

/-- Witness for C1: after the advertiser approves booking `7`, a later
`claimAfterTimeout` on `7` (with an unrelated funding in between) reverts
with `InvalidState`. -/
theorem C1_witness :
    exec (run (exLedgerPS.set 7 exBookingApproved)
           [.fund ⟨1, 3, 300⟩ 8 2 3 11])
      (.claim ⟨4, 0, 999999⟩ true 7) = .error .InvalidState :=
  @C1_terminal_exclusivity exLedgerPS exLedgerPS_reachable
    (.approve ⟨1, 0, 200⟩ true 7) (by decide) (by decide)
    (exLedgerPS.set 7 exBookingApproved) exOutApproved (by rfl)
    [.fund ⟨1, 3, 300⟩ 8 2 3 11] (.claim ⟨4, 0, 999999⟩ true 7)
    (by decide) (by decide)

/-- **C4.** In every reachable ledger, every funded instance (slot with
nonzero advertiser) has a nonzero amount exactly while its state is `Funded`
or `ProofSubmitted`, and every slot in a terminal state (`Approved`,
`Rejected`, `Expired`) has zero amount.  Because `Reachable` closes the
initial ledger under every operation (by nonzero senders), this invariant is
preserved by every operation. -/
theorem C4_amount_invariant {L : Ledger} (hreach : Reachable L)
    (bookingId : Nat) :
    ((L.get bookingId).advertiser ≠ 0 →
       ((L.get bookingId).amount ≠ 0 ↔
         ((L.get bookingId).state = .Funded ∨
          (L.get bookingId).state = .ProofSubmitted))) ∧
    (((L.get bookingId).state).isTerminal = true →
       (L.get bookingId).amount = 0) := by
  have hInv := inv_reachable hreach bookingId
  constructor
  · intro hadv
    rw [hInv.2 hadv]
    cases hst : (L.get bookingId).state <;>
      simp [BookingState.isTerminal]
  · intro hterm
    by_cases hadv : (L.get bookingId).advertiser = 0
    · rw [hInv.1 hadv]
      rfl
    · by_contra hne
      have hfalse := (hInv.2 hadv).mp hne
      rw [hterm] at hfalse
      exact Bool.noConfusion hfalse

/-- Witness for C4: the invariant instantiated at booking `7` of the concrete
`ProofSubmitted` ledger. -/
theorem C4_witness :
    ((exLedgerPS.get 7).advertiser ≠ 0 →
       ((exLedgerPS.get 7).amount ≠ 0 ↔
         ((exLedgerPS.get 7).state = .Funded ∨
          (exLedgerPS.get 7).state = .ProofSubmitted))) ∧
    (((exLedgerPS.get 7).state).isTerminal = true →
       (exLedgerPS.get 7).amount = 0) :=
  C4_amount_invariant exLedgerPS_reachable 7

/-- **C8.** After a successful `fundBooking` on an id (by a nonzero sender),
every later `fundBooking` call on the same id sending a nonzero value reverts
with `AlreadyExists` — whatever calls happen in between and whatever state
(`Funded`, `ProofSubmitted`, `Approved`, `Rejected` or `Expired`) the
instance has reached. -/
theorem C8_unique_funding {L : Ledger} {env : Env} {bookingId w i m : Nat}
    {L' : Ledger} {o : OpOut} (hs : env.sender ≠ 0)
    (hok : exec L (.fund env bookingId w i m) = .ok (L', o))
    (mid : List Call) (env' : Env) (w' i' m' : Nat) (hv : env'.value ≠ 0) :
    exec (run L' mid) (.fund env' bookingId w' i' m') =
      .error .AlreadyExists := by
  have hcc := commitCall_ok (exec_ok hok)
  have hadv : (L'.get bookingId).advertiser ≠ 0 := by
    have ht : (Call.fund env bookingId w i m).targetId = bookingId := rfl
    rw [hcc.2, ht, Ledger.get_set_self]
    obtain ⟨_, _, _, _, _, rfl⟩ := fundBooking_ok hcc.1
    exact hs
  have hadv2 := adv_nonzero_run mid hadv
  have hres := @fund_reverts_of_exists (run L' mid) env' bookingId w' i' m' hadv2
  rw [hres, if_neg hv]

/-- Witness for C8: refunding booking `7` with 1 wei after it was funded and
its proof submitted reverts with `AlreadyExists`. -/
theorem C8_witness :
    exec (run (initLedger.set 7 exBookingFunded) [exSubmit])
      (.fund ⟨6, 1, 400⟩ 7 2 3 11) = .error .AlreadyExists :=
  @C8_unique_funding initLedger ⟨1, 5, 100⟩ 7 2 3 11
    (initLedger.set 7 exBookingFunded)
    { booking := exBookingFunded, transfer := none,
      events := [.BookingFunded 7 1 2 3 5 11] }
    (by decide) (by rfl) [exSubmit] ⟨6, 1, 400⟩ 2 3 11 (by decide)

/-- **C10.** An id on which no `fundBooking` has ever succeeded — in a
reachable ledger, exactly an id whose slot has advertiser zero, and such a
slot is still the zero-initialized record, whose state is the enum default
`Funded`, not `ProofSubmitted` — rejects every mutating operation from any
nonzero caller and the ledger is unchanged: `approveProof`, `rejectProof` and
`claimAfterTimeout` revert with `InvalidState`, while `submitProof` and
`reclaimExpiredBooking` pass the `Funded` state guard but revert with
`Unauthorized` because the stored installer and advertiser are the zero
address. -/
theorem C10_unfunded_reverts {L : Ledger} {bookingId : Nat}
    (hreach : Reachable L) (hadv : (L.get bookingId).advertiser = 0)
    (env : Env) (hs : env.sender ≠ 0) (x : Bool) (ph rh : Nat) :
    Booking.empty.state = .Funded ∧
    L.get bookingId = Booking.empty ∧
    exec L (.approve env x bookingId) = .error .InvalidState ∧
    exec L (.reject env x bookingId rh) = .error .InvalidState ∧
    exec L (.claim env x bookingId) = .error .InvalidState ∧
    exec L (.submit env bookingId ph) = .error .Unauthorized ∧
    exec L (.reclaim env x bookingId) = .error .Unauthorized ∧
    step L (.approve env x bookingId) = L ∧
    step L (.reject env x bookingId rh) = L ∧
    step L (.claim env x bookingId) = L ∧
    step L (.submit env bookingId ph) = L ∧
    step L (.reclaim env x bookingId) = L := by
  have hempty := (inv_reachable hreach bookingId).1 hadv
  have h1 : exec L (.approve env x bookingId) = .error .InvalidState := by
    simp [exec, commitCall, callC, approveProofC, Call.targetId, hempty,
      Booking.empty]
  have h2 : exec L (.reject env x bookingId rh) = .error .InvalidState := by
    simp [exec, commitCall, callC, rejectProofC, Call.targetId, hempty,
      Booking.empty]
  have h3 : exec L (.claim env x bookingId) = .error .InvalidState := by
    simp [exec, commitCall, callC, claimAfterTimeoutC, Call.targetId, hempty,
      Booking.empty]
  have h4 : exec L (.submit env bookingId ph) = .error .Unauthorized := by
    simp [exec, commitCall, callC, submitProof, Call.targetId, hempty,
      Booking.empty, hs]
  have h5 : exec L (.reclaim env x bookingId) = .error .Unauthorized := by
    simp [exec, commitCall, callC, reclaimExpiredBookingC, Call.targetId,
      hempty, Booking.empty, hs]
  exact ⟨rfl, hempty, h1, h2, h3, h4, h5, step_of_error h1, step_of_error h2,
    step_of_error h3, step_of_error h4, step_of_error h5⟩

/-- Witness for C10: the never-funded id `8` of the concrete ledger rejects
every mutating operation from caller `5`. -/
theorem C10_witness :
    Booking.empty.state = .Funded ∧
    exLedgerPS.get 8 = Booking.empty ∧
    exec exLedgerPS (.approve ⟨5, 0, 50⟩ true 8) = .error .InvalidState ∧
    exec exLedgerPS (.reject ⟨5, 0, 50⟩ true 8 2) = .error .InvalidState ∧
    exec exLedgerPS (.claim ⟨5, 0, 50⟩ true 8) = .error .InvalidState ∧
    exec exLedgerPS (.submit ⟨5, 0, 50⟩ 8 1) = .error .Unauthorized ∧
    exec exLedgerPS (.reclaim ⟨5, 0, 50⟩ true 8) = .error .Unauthorized ∧
    step exLedgerPS (.approve ⟨5, 0, 50⟩ true 8) = exLedgerPS ∧
    step exLedgerPS (.reject ⟨5, 0, 50⟩ true 8 2) = exLedgerPS ∧
    step exLedgerPS (.claim ⟨5, 0, 50⟩ true 8) = exLedgerPS ∧
    step exLedgerPS (.submit ⟨5, 0, 50⟩ 8 1) = exLedgerPS ∧
    step exLedgerPS (.reclaim ⟨5, 0, 50⟩ true 8) = exLedgerPS :=
  C10_unfunded_reverts exLedgerPS_reachable (by decide) ⟨5, 0, 50⟩ (by decide)
    true 1 2

end PhysicalWallEscrow
